import Mathlib

/-!
Verification development for the funcworks model-compilation and
aggregation engine (funcworks/interfaces/modelgen.py).

The Python source is shallowly embedded below.  Strings are Lean strings,
pandas numeric values are rationals, numpy volumes are flat lists of voxel
values, Python dicts with string keys are association lists preserving
insertion order, and every Python statement that can raise is embedded in
the Except monad with the exception name as the error message.
-/

/-! ## String helpers

Own structural implementations of the string operations used by the
source (str.split on a single character, str.upper, str.capitalize), so
that every proof reduces inside the kernel. -/

/-- Split a character list at every occurrence of a separator, mirroring
Python str.split with a one-character separator. -/
def splitChars (sep : Char) : List Char → List (List Char)
  | [] => [[]]
  | c :: cs =>
    let r := splitChars sep cs
    if c = sep then [] :: r
    else
      match r with
      | h :: t => (c :: h) :: t
      | [] => [[c]]

/-- Python s.split(sep) for a one-character separator. -/
def splitOnChar (s : String) (sep : Char) : List String :=
  (splitChars sep s.data).map String.mk

/-- Python s.upper(). -/
def strToUpper (s : String) : String := String.mk (s.data.map Char.toUpper)

/-- Python s.capitalize() restricted to what snake_to_camel needs
(first character upper-cased, rest kept). -/
def capitalizeStr (s : String) : String :=
  match s.data with
  | [] => ""
  | c :: cs => String.mk (c.toUpper :: cs)

/-- Modelled from the spec: snake_to_camel from funcworks.utils, which is
imported by modelgen.py but not included under src/.  The spec (section
4.2 and the C10 sources) only says the contrast name is camel-cased, so
each underscore-separated component is capitalized and the components are
joined. -/
def snakeToCamel (s : String) : String :=
  String.join ((splitOnChar s '_').map capitalizeStr)

/-! ## Run-level model compiler: GetRunModelInfo._get_model_info

Embeds modelgen.py lines 129-161.  An event table is a list of rows, each
carrying the numeric onset and duration columns and the categorical
columns as an association list.  A confound table carries its named
numeric columns and its row count (len of the DataFrame). -/

/-- One row of the run's events.tsv. -/
structure EventRow where
  onset : ℚ
  duration : ℚ
  cats : List (String × String)
deriving DecidableEq

/-- The run's confounds regressors table. -/
structure ConfoundTable where
  columns : List (String × List ℚ)
  nrows : ℕ
deriving DecidableEq

/-- The Bunch built by _get_model_info, with the fields in the order the
source dict declares them (lines 137-142). -/
structure RunInfo where
  conditions : List String
  onsets : List (List ℚ)
  amplitudes : List (List ℚ)
  durations : List (List ℚ)
  regressor_names : List String
  regressors : List (List ℚ)
deriving DecidableEq

/-- First value bound to a key in an association list of strings. -/
def lookupCat : List (String × String) → String → Option String
  | [], _ => none
  | (k, v) :: rest, key => if k = key then some v else lookupCat rest key

/-- First column with the given name in the confound table. -/
def lookupCol : List (String × List ℚ) → String → Option (List ℚ)
  | [], _ => none
  | (k, v) :: rest, key => if k = key then some v else lookupCol rest key

/-- Pandas event_data.query(column == value): the rows whose categorical
column equals the value (the column is present in a well-formed table). -/
def queryRows (col val : String) (ev : List EventRow) : List EventRow :=
  ev.filter (fun row => decide (lookupCat row.cats col = some val))

/-- modelgen.py lines 143-156: walk the model's predictor list X in order.
A name containing a dot selects event rows (an empty selection is
silently skipped); any other name is a confound column (KeyError when
absent, as conf_data[regressor] raises).  A name with more than one dot
makes the two-variable unpacking of split raise ValueError. -/
def getModelInfo : List String → List EventRow → ConfoundTable → Except String RunInfo
  | [], _, _ => .ok ⟨[], [], [], [], [], []⟩
  | r :: rest, ev, cf =>
    match splitOnChar r '.' with
    | [col, val] =>
      let frame := queryRows col val ev
      if frame.isEmpty then getModelInfo rest ev cf
      else
        match getModelInfo rest ev cf with
        | .error e => .error e
        | .ok t =>
          .ok { t with
                conditions := r :: t.conditions,
                onsets := frame.map (fun row => row.onset) :: t.onsets,
                durations := frame.map (fun row => row.duration) :: t.durations,
                amplitudes := List.replicate frame.length 1 :: t.amplitudes }
    | [_] =>
      match lookupCol cf.columns r with
      | none => .error "KeyError"
      | some vals =>
        match getModelInfo rest ev cf with
        | .error e => .error e
        | .ok t =>
          .ok { t with
                regressor_names := r :: t.regressor_names,
                regressors := vals :: t.regressors }
    | _ => .error "ValueError"

/-! ## Polynomial detrending: GetRunModelInfo._detrend_polynomial

Embeds modelgen.py lines 228-243 plus the call site at lines 85-89. -/

/-- Legendre polynomial of degree n evaluated by the standard three-term
recurrence, matching scipy.special.legendre. -/
def legendreEval : ℕ → ℚ → ℚ
  | 0, _ => 1
  | 1, x => x
  | k + 2, x =>
    ((2 * (k + 1) + 1) * x * legendreEval (k + 1) x
      - (k + 1) * legendreEval k x) / (k + 2)

/-- np.linspace(-1, 1, m). -/
def linspaceSym (m : ℕ) : List ℚ :=
  if m ≤ 1 then List.replicate m (-1)
  else (List.range m).map (fun j => -1 + 2 * (j : ℚ) / ((m : ℚ) - 1))

/-- The detrend regressor names legendre00 .. legendre0N (f-string 02d). -/
def detrendNames (n : ℕ) : List String :=
  (List.range (n + 1)).map
    (fun i => "legendre" ++ (if i < 10 then "0" ++ toString i else toString i))

/-- The detrend regressor value arrays, degree 0 .. N over the normalized
axis of length nrows. -/
def detrendArrays (n : ℕ) (m : ℕ) : List (List ℚ) :=
  (List.range (n + 1)).map (fun i => (linspaceSym m).map (legendreEval i))

/-- modelgen.py lines 85-89: the detrend names and arrays are appended to
the already-built run_info, but only when detrend_poly is truthy (None
and 0 are both falsy in Python, so degree 0 requests no detrending). -/
def applyDetrend (info : RunInfo) (m : ℕ) : Option ℕ → RunInfo
  | none => info
  | some n =>
    if n = 0 then info
    else { info with
           regressor_names := info.regressor_names ++ detrendNames n,
           regressors := info.regressors ++ detrendArrays n m }

/-- Number of regressors a detrend request appends. -/
def detrendCount : Option ℕ → ℕ
  | none => 0
  | some n => if n = 0 then 0 else n + 1

/-- The run compilation result: the (possibly detrended) run_info and the
DegreesOfFreedom entity. -/
structure RunCompile where
  info : RunInfo
  dof : Int
deriving DecidableEq

/-- modelgen.py _list_outputs, lines 70-89: build run_info, compute
DegreesOfFreedom = n_vols - len(event_regressors + confound_regressors)
from the run_info as built (line 80), and only afterwards append the
detrend terms (lines 85-89). -/
def compileRunModel (X : List String) (ev : List EventRow) (cf : ConfoundTable)
    (detrendPoly : Option ℕ) : Except String RunCompile :=
  match getModelInfo X ev cf with
  | .error e => .error e
  | .ok info =>
    .ok { info := applyDetrend info cf.nrows detrendPoly,
          dof := (cf.nrows : Int)
                   - ((info.conditions.length + info.regressor_names.length : ℕ) : Int) }

/-! ## Contrast generation: GetRunModelInfo._get_contrasts

Embeds modelgen.py lines 163-199.  The run-level model dict always has a
DummyContrasts key (line 173 indexes it unconditionally); its optional
Conditions entry is the DummyConditions field below. -/

/-- One entry of the model's Contrasts list.  The source dict key Type is
not a legal Lean field name, so it is called ctype. -/
structure Contrast where
  Name : String
  ctype : String
  ConditionList : List String
  Weights : List ℚ
deriving DecidableEq

/-- The parts of the run-level model dict that _get_contrasts and
_get_model_info read. -/
structure RunModel where
  X : List String
  Contrasts : List Contrast
  DummyConditions : Option (List String)
deriving DecidableEq

/-- A nipype contrast tuple (name, type, condition list, weights). -/
abbrev ContrastTuple := String × String × List String × List ℚ

/-- modelgen.py lines 173-176: explicit DummyContrasts.Conditions if the
key is present, else the full predictor list X. -/
def dummyList (model : RunModel) : List String :=
  match model.DummyConditions with
  | some cs => cs
  | none => model.X

/-- modelgen.py lines 178-182: a dummy candidate that contains a dot but
did not match data this run is skipped; every other candidate yields a
unit T contrast. -/
def processDummies (en : List String) : List String → List ContrastTuple × List String
  | [] => ([], [])
  | d :: rest =>
    if !(en.contains d) && d.data.contains '.' then processDummies en rest
    else
      let r := processDummies en rest
      ((d, "T", [d], ([1] : List ℚ)) :: r.1, d :: r.2)

/-- modelgen.py lines 184-198: a named contrast is skipped unless
set(event_names).issubset(ConditionList); a surviving contrast named
task_vs_baseline is rebuilt over the full event_names with weights
1/len(event_names) each (ZeroDivisionError when event_names is empty);
any other surviving contrast is passed through verbatim with its type
upper-cased. -/
def processReals : List Contrast → List String → Except String (List ContrastTuple × List String)
  | [], _ => .ok ([], [])
  | c :: rest, en =>
    if en.all (fun e => c.ConditionList.contains e) then
      if c.Name = "task_vs_baseline" then
        if en.isEmpty then .error "ZeroDivisionError"
        else
          match processReals rest en with
          | .error e => .error e
          | .ok r =>
            .ok ((c.Name, strToUpper c.ctype, en,
                   List.replicate en.length ((1 : ℚ) / (en.length : ℚ))) :: r.1,
                 c.Name :: r.2)
      else
        match processReals rest en with
        | .error e => .error e
        | .ok r =>
          .ok ((c.Name, strToUpper c.ctype, c.ConditionList, c.Weights) :: r.1,
               c.Name :: r.2)
    else processReals rest en

/-- The tuple _get_contrasts emits for a surviving named contrast. -/
def emittedTuple (en : List String) (c : Contrast) : ContrastTuple :=
  if c.Name = "task_vs_baseline" then
    (c.Name, strToUpper c.ctype, en, List.replicate en.length ((1 : ℚ) / (en.length : ℚ)))
  else (c.Name, strToUpper c.ctype, c.ConditionList, c.Weights)

/-- modelgen.py _get_contrasts: dummy contrasts first, then the named
contrasts, names accumulated in the same order. -/
def getContrasts (model : RunModel) (event_names : List String) :
    Except String (List ContrastTuple × List String) :=
  let d := processDummies event_names (dummyList model)
  match processReals model.Contrasts event_names with
  | .error e => .error e
  | .ok r => .ok (d.1 ++ r.1, d.2 ++ r.2)

/-! ## Higher-level aggregator: GenerateHigherInfo

Embeds modelgen.py lines 270-424.  BIDS entity dictionaries are
association lists from string keys to values that are strings, ints or
rationals, preserving Python dict insertion order. -/

/-- A value stored in a BIDS entity dictionary. -/
inductive EVal where
  | s (v : String)
  | n (v : Int)
  | q (v : ℚ)
deriving DecidableEq

/-- A BIDS entity dictionary. -/
abbrev Entities := List (String × EVal)

/-- Python e[k] lookup (dict keys are unique, so the first hit is the
entry). -/
def eget : Entities → String → Option EVal
  | [], _ => none
  | (k0, v0) :: rest, k => if k0 = k then some v0 else eget rest k

/-- Python e[k] = v or e.update, replacing the value in place when the
key exists and appending the new entry otherwise. -/
def eset : Entities → String → EVal → Entities
  | [], k, v => [(k, v)]
  | (k0, v0) :: rest, k, v =>
    if k0 = k then (k, v) :: rest else (k0, v0) :: eset rest k v

/-- Python e.pop(k, None). -/
def epop : Entities → String → Entities
  | [], _ => []
  | (k0, v0) :: rest, k =>
    if k0 = k then epop rest k else (k0, v0) :: epop rest k

/-- A loaded statistic volume: the flattened voxel values. -/
structure Volume where
  grid : List ℚ
deriving DecidableEq

/-- A numeric entity value, as the numpy multiplication at line 340 needs
one. -/
def evalNum : EVal → Option ℚ
  | .n v => some ((v : Int) : ℚ)
  | .q v => some v
  | .s _ => none

/-- np.ones_like(effect data) * DegreesOfFreedom: the run's scalar DOF
broadcast over that run's voxel grid. -/
def dofBroadcast (v : Volume) (d : ℚ) : Volume :=
  ⟨v.grid.map (fun _ => d)⟩

/-- The step-level model dict as GenerateHigherInfo reads it: none when
the DummyContrasts key is absent, some none when it is present without a
Conditions entry, some (some cs) when Conditions is given. -/
structure HLModel where
  dummyContrasts : Option (Option (List String))
deriving DecidableEq

/-- The per-contrast organization built by _get_organization: contrast
entity value to the File/Metadata records of that bucket, in first-seen
key order. -/
abbrev Org := List (EVal × List (Volume × Entities))

/-- Append a map to its contrast bucket, creating the bucket at the end
on first sight (Python dict insertion order). -/
def addToOrg (org : Org) (c : EVal) (b : Volume × Entities) : Org :=
  if org.any (fun p => decide (p.1 = c)) then
    org.map (fun p => if p.1 = c then (p.1, p.2 ++ [b]) else p)
  else org ++ [(c, [b])]

/-- modelgen.py lines 294-308: partition the zipped maps and metadata by
the contrast entity (KeyError when a metadata dict lacks it). -/
def getOrgAux (acc : Org) : List (Volume × Entities) → Except String Org
  | [] => .ok acc
  | m :: rest =>
    match eget m.2 "contrast" with
    | none => .error "KeyError"
    | some c => getOrgAux (addToOrg acc c m) rest

/-- GenerateHigherInfo._get_organization, grouping part. -/
def getOrganization (maps : List (Volume × Entities)) : Except String Org :=
  getOrgAux [] maps

/-- modelgen.py lines 312-318: the contrasts that _merge_maps will
iterate over.  No DummyContrasts key means an empty list; DummyContrasts
without Conditions means every bucket key. -/
def getDummyContrasts (model : HLModel) (org : Org) : List EVal :=
  match model.dummyContrasts with
  | none => []
  | some (some conds) => conds.map EVal.s
  | some none => org.map (fun p => p.1)

/-- The bucket for a contrast (Python organization[dcontrast], KeyError
when absent). -/
def orgLookup (org : Org) (c : EVal) : Option (List (Volume × Entities)) :=
  match org.find? (fun p => decide (p.1 = c)) with
  | some p => some p.2
  | none => none

/-- The per-bucket accumulator of _merge_maps (dceffect_maps,
dcvariance_maps, dcdof_maps, dcentities), lines 330-333. -/
structure BucketAcc where
  effects : List Volume
  dofs : List Volume
  variances : List Volume
  ents : Entities
deriving DecidableEq

/-- modelgen.py lines 334-348, one bids_info record: a metadata dict with
no stat key is skipped outright; stat effect loads the file and builds
the broadcast DOF companion (KeyError when DegreesOfFreedom is absent,
and a non-numeric value cannot be multiplied into the ones array); stat
variance loads the file; any other stat value only updates the last-seen
entities, which every non-skipped record does. -/
def processMap (acc : BucketAcc) (m : Volume × Entities) : Except String BucketAcc :=
  match eget m.2 "stat" with
  | none => .ok acc
  | some sv =>
    if sv = EVal.s "effect" then
      match (eget m.2 "DegreesOfFreedom").bind evalNum with
      | none => .error "KeyError"
      | some d =>
        .ok { effects := acc.effects ++ [m.1],
              dofs := acc.dofs ++ [dofBroadcast m.1 d],
              variances := acc.variances,
              ents := m.2 }
    else if sv = EVal.s "variance" then
      .ok { acc with variances := acc.variances ++ [m.1], ents := m.2 }
    else .ok { acc with ents := m.2 }

/-- The inner for-loop of _merge_maps over one bucket. -/
def processBucket (acc : BucketAcc) : List (Volume × Entities) → Except String BucketAcc
  | [] => .ok acc
  | m :: rest =>
    match processMap acc m with
    | .error e => .error e
    | .ok acc2 => processBucket acc2 rest

/-- What one merged bucket contributes: the concatenated effect, variance
and DOF volumes (a merged volume is the ordered list of its slices, whose
length is the new trailing-axis extent) and the merged entities. -/
structure BucketOut where
  effects : List Volume
  variances : List Volume
  dofs : List Volume
  ents : Entities
deriving DecidableEq

/-- modelgen.py lines 349-356 for one contrast: nb.concat_images raises
on an empty list (effect first, then variance; the DOF list is nonempty
whenever the effect list is); NumLevelTimepoints is the trailing-axis
length of the merged effect volume; the stat key is popped before the
entities are appended to map_entities. -/
def mergeBucket (bucket : List (Volume × Entities)) : Except String BucketOut :=
  match processBucket ⟨[], [], [], []⟩ bucket with
  | .error e => .error e
  | .ok acc =>
    if acc.effects.isEmpty then .error "IndexError"
    else if acc.variances.isEmpty then .error "IndexError"
    else
      .ok { effects := acc.effects,
            variances := acc.variances,
            dofs := acc.dofs,
            ents := epop (eset acc.ents "NumLevelTimepoints"
                            (EVal.n (acc.effects.length : Int))) "stat" }

/-- The aggregate of _merge_maps over all dummy contrasts: map_entities
and the merged volumes, in dummy-contrast order. -/
structure MergeOut where
  entities : List Entities
  effects : List (List Volume)
  variances : List (List Volume)
  dofs : List (List Volume)
deriving DecidableEq

/-- modelgen.py lines 329-356: only the contrasts in dummy_contrasts are
merged; organization[dcontrast] raises KeyError when a listed contrast
has no bucket. -/
def mergeMaps (org : Org) : List EVal → Except String MergeOut
  | [] => .ok ⟨[], [], [], []⟩
  | dc :: rest =>
    match orgLookup org dc with
    | none => .error "KeyError"
    | some bucket =>
      match mergeBucket bucket with
      | .error e => .error e
      | .ok b =>
        match mergeMaps org rest with
        | .error e => .error e
        | .ok out =>
          .ok ⟨b.ents :: out.entities, b.effects :: out.effects,
               b.variances :: out.variances, b.dofs :: out.dofs⟩

/-! ## Matrix emission: GenerateHigherInfo._produce_matrices

Embeds modelgen.py lines 383-424.  The filesystem is an association list
from path to file content; opening with mode a appends to an existing
file and creates a missing one. -/

/-- The working-directory filesystem state. -/
abbrev FS := List (String × String)

/-- open(path, mode a) followed by writing content. -/
def fsAppend : FS → String → String → FS
  | [], p, c => [(p, c)]
  | (p0, c0) :: rest, p, c =>
    if p0 = p then (p0, c0 ++ c) :: rest else (p0, c0) :: fsAppend rest p c

/-- How str.format renders an entity value into a path or header. -/
def evalStr : EVal → String
  | .s v => v
  | .n v => toString v
  | .q v => toString v.num ++ "/" ++ toString v.den

/-- bids build_path over the fixed pattern
sub-SUBJECT[ses-SESSION_]contrast-CONTRAST_desc-DESC_design.mat
(line 400): the bracketed session segment is dropped when the key is
absent, and the pattern does not apply at all (None, so the Path division
at line 407 raises) when a required key is missing. -/
def buildMatrixPath (e : Entities) : Option String :=
  match eget e "subject", eget e "contrast", eget e "desc" with
  | some subj, some con, some desc =>
    some ("sub-" ++ evalStr subj
      ++ (match eget e "session" with
          | some sess => "ses-" ++ evalStr sess ++ "_"
          | none => "")
      ++ "contrast-" ++ evalStr con ++ "_desc-" ++ evalStr desc ++ "_design.mat")
  | _, _, _ => none

/-- The header_lines blocks of lines 388-399, with the format
placeholders substituted. -/
def headerLines (mt : String) (numcopes : Int) (contrast : String) : List String :=
  if mt = "contrast" then
    ["/ContrastName1 " ++ contrast ++ "\n",
     "/NumWaves 1\n",
     "/NumPoints 1\n\n",
     "/Matrix\n",
     "1\n"]
  else if mt = "design" then
    ["/NumWaves 1\n",
     "/NumPoints " ++ toString numcopes ++ "\n",
     "/PPHeights 1\n\n",
     "/Matrix\n"]
  else
    ["/NumWaves 1\n",
     "/NumPoints " ++ toString numcopes ++ "\n\n",
     "/Matrix\n"]

/-- Every line one iteration of the matrix_type loop writes into its
file: the header block, then (lines 416-418) one body line per cope for
the covariance matrix only. -/
def writtenLines (mt : String) (numcopes : Int) (contrast : String) : List String :=
  headerLines mt numcopes contrast
    ++ (if mt = "covariance" then List.replicate numcopes.toNat "1\n" else [])

/-- State threaded through the matrix_type loop for one entity: the
mutated ents copy, the filesystem, and the per-kind path lists. -/
structure PMState where
  ents : Entities
  fs : FS
  dPaths : List String
  cPaths : List String
  vPaths : List String
deriving DecidableEq

/-- modelgen.py lines 405-421, one matrix_type iteration: desc is forced
to contrast, the path is built from the current ents (so from the
original contrast name on the first iteration and from the camel-cased
one afterwards), the ContrastName1 value is read from the current ents,
the contrast entry is re-camel-cased from the original entity, and the
lines are appended to the file at the path. -/
def produceOne (entity : Entities) (numcopes : Int) (st : PMState) (mt : String) :
    Except String PMState :=
  let ents1 := eset st.ents "desc" (EVal.s "contrast")
  match buildMatrixPath ents1 with
  | none => .error "TypeError"
  | some path =>
    match eget ents1 "contrast" with
    | none => .error "KeyError"
    | some con =>
      match eget entity "contrast" with
      | none => .error "KeyError"
      | some origCon =>
        .ok { ents := eset ents1 "contrast" (EVal.s (snakeToCamel (evalStr origCon))),
              fs := fsAppend st.fs path
                      (String.join (writtenLines mt numcopes (evalStr con))),
              dPaths := st.dPaths ++ (if mt = "design" then [path] else []),
              cPaths := st.cPaths ++ (if mt = "contrast" then [path] else []),
              vPaths := st.vPaths ++ (if mt = "covariance" then [path] else []) }

/-- The for matrix_type in [design, contrast, covariance] loop. -/
def processTypes (entity : Entities) (numcopes : Int) :
    PMState → List String → Except String PMState
  | st, [] => .ok st
  | st, mt :: rest =>
    match produceOne entity numcopes st mt with
    | .error e => .error e
    | .ok st2 => processTypes entity numcopes st2 rest

/-- The cross-entity accumulator of _produce_matrices: the filesystem and
the three path lists. -/
structure PMAcc where
  fs : FS
  dPaths : List String
  cPaths : List String
  vPaths : List String
deriving DecidableEq

/-- modelgen.py lines 402-421 for one entity: ents is a fresh copy of the
entity, numcopes its NumLevelTimepoints (KeyError when absent, and the
covariance body loop needs an int), then the three matrix types are
processed in order. -/
def produceForEntity (acc : PMAcc) (entity : Entities) : Except String PMAcc :=
  match eget entity "NumLevelTimepoints" with
  | some (EVal.n k) =>
    match processTypes entity k ⟨entity, acc.fs, acc.dPaths, acc.cPaths, acc.vPaths⟩
            ["design", "contrast", "covariance"] with
    | .error e => .error e
    | .ok st => .ok ⟨st.fs, st.dPaths, st.cPaths, st.vPaths⟩
  | some _ => .error "TypeError"
  | none => .error "KeyError"

/-- GenerateHigherInfo._produce_matrices over all merged contrast
entities, starting from the given filesystem state. -/
def produceMatrices : List Entities → PMAcc → Except String PMAcc
  | [], acc => .ok acc
  | e :: rest, acc =>
    match produceForEntity acc e with
    | .error err => .error err
    | .ok acc2 => produceMatrices rest acc2

/-! ## Characterizations used by the theorems -/

/-- A record whose metadata carries stat effect. -/
def isEffect (m : Volume × Entities) : Bool :=
  decide (eget m.2 "stat" = some (EVal.s "effect"))

/-- A record whose metadata carries stat variance. -/
def isVariance (m : Volume × Entities) : Bool :=
  decide (eget m.2 "stat" = some (EVal.s "variance"))

/-- The effect volumes of a bucket, in input order. -/
def effectFiles (bucket : List (Volume × Entities)) : List Volume :=
  (bucket.filter isEffect).map (fun m => m.1)

/-- The numeric DegreesOfFreedom entity of a metadata dict (defaulting
where _merge_maps would instead raise). -/
def dofOfMeta (e : Entities) : ℚ :=
  ((eget e "DegreesOfFreedom").bind evalNum).getD 0

/-- The broadcast DOF companions of the effect volumes, in the same
order. -/
def effectDofVols (bucket : List (Volume × Entities)) : List Volume :=
  (bucket.filter isEffect).map (fun m => dofBroadcast m.1 (dofOfMeta m.2))

/-- The variance volumes of a bucket, in input order. -/
def varianceFiles (bucket : List (Volume × Entities)) : List Volume :=
  (bucket.filter isVariance).map (fun m => m.1)

/-- The metadata copy of the last record of the bucket that has a stat
key (what dcentities holds after the bids_info loop). -/
def lastStatEnts (init : Entities) : List (Volume × Entities) → Entities
  | [] => init
  | m :: rest =>
    lastStatEnts (if (eget m.2 "stat").isSome then m.2 else init) rest


/-! ## Concrete inputs used by witnesses and counterexamples -/

/-- A model with one named contrast whose ConditionList strictly contains
the run's condition names. -/
def exC1Model : RunModel := ⟨["a"], [⟨"c", "t", ["a", "b"], [1, -1]⟩], some []⟩

/-- A task_vs_baseline contrast entry. -/
def exTvbContrast : Contrast := ⟨"task_vs_baseline", "t", ["a", "b"], [1]⟩

/-- A model holding only the task_vs_baseline contrast. -/
def exTvbModel : RunModel := ⟨[], [exTvbContrast], some []⟩

/-- Metadata of an effect statmap of contrast c from run 1 with DOF 5. -/
def exEffMeta : Entities :=
  [("run", EVal.n 1), ("contrast", EVal.s "c"),
   ("DegreesOfFreedom", EVal.n 5), ("stat", EVal.s "effect")]

/-- Metadata of a variance statmap of contrast c from run 2. -/
def exVarMeta : Entities :=
  [("run", EVal.n 2), ("contrast", EVal.s "c"), ("stat", EVal.s "variance")]

/-- One contrast bucket holding an effect map and a variance map. -/
def exBucket : List (Volume × Entities) := [(⟨[2]⟩, exEffMeta), (⟨[3]⟩, exVarMeta)]

/-- An effect statmap record for a contrast named c. -/
def exSingleMap : Volume × Entities :=
  (⟨[0]⟩, [("contrast", EVal.s "c"), ("stat", EVal.s "effect"),
           ("DegreesOfFreedom", EVal.n 3)])

/-- A merged contrast entity record as _produce_matrices receives it. -/
def exMergedEnt : Entities :=
  [("subject", EVal.s "01"), ("contrast", EVal.s "a"), ("NumLevelTimepoints", EVal.n 1)]

/-! ## Helper lemmas on entity dictionaries -/

lemma eget_eset_self (e : Entities) (k : String) (v : EVal) :
    eget (eset e k v) k = some v := by
  induction e with
  | nil => simp [eset, eget]
  | cons p rest ih =>
    obtain ⟨k0, v0⟩ := p
    by_cases h : k0 = k
    · simp [eset, eget, h]
    · simp [eset, eget, h, ih]

lemma eget_eset_ne (e : Entities) (k k' : String) (v : EVal) (h : k' ≠ k) :
    eget (eset e k v) k' = eget e k' := by
  induction e with
  | nil => simp [eset, eget, Ne.symm h]
  | cons p rest ih =>
    obtain ⟨k0, v0⟩ := p
    by_cases h0 : k0 = k
    · simp [eset, eget, h0, Ne.symm h]
    · by_cases h1 : k0 = k'
      · simp [eset, eget, h0, h1, h]
      · simp [eset, eget, h0, h1, ih]

lemma eget_epop_ne (e : Entities) (k k' : String) (h : k' ≠ k) :
    eget (epop e k) k' = eget e k' := by
  induction e with
  | nil => simp [epop, eget]
  | cons p rest ih =>
    obtain ⟨k0, v0⟩ := p
    by_cases h0 : k0 = k
    · simp [epop, eget, h0, Ne.symm h, ih]
    · by_cases h1 : k0 = k'
      · simp [epop, eget, h0, h1, h]
      · simp [epop, eget, h0, h1, ih]

/-! ## Helper lemmas on the bucket merge -/

lemma processBucket_cons_ok (acc : BucketAcc) (m : Volume × Entities)
    (rest : List (Volume × Entities)) (acc2 : BucketAcc)
    (h : processBucket acc (m :: rest) = .ok acc2) :
    ∃ acc3, processMap acc m = .ok acc3 ∧ processBucket acc3 rest = .ok acc2 := by
  simp only [processBucket] at h
  split at h
  · exact absurd h (by simp)
  · next a heq => exact ⟨a, heq, h⟩

lemma processBucket_ok (bucket : List (Volume × Entities)) :
    ∀ acc acc2, processBucket acc bucket = .ok acc2 →
      acc2.effects = acc.effects ++ effectFiles bucket ∧
      acc2.dofs = acc.dofs ++ effectDofVols bucket ∧
      acc2.variances = acc.variances ++ varianceFiles bucket ∧
      acc2.ents = lastStatEnts acc.ents bucket := by
  induction bucket with
  | nil =>
    intro acc acc2 h
    simp [processBucket] at h
    simp [h, effectFiles, effectDofVols, varianceFiles, lastStatEnts]
  | cons m rest ih =>
    intro acc acc2 h
    obtain ⟨acc3, hpm, hrest⟩ := processBucket_cons_ok acc m rest acc2 h
    cases hstat : eget m.2 "stat" with
    | none =>
      simp [processMap, hstat] at hpm
      subst hpm
      have he : isEffect m = false := by simp [isEffect, hstat]
      have hv : isVariance m = false := by simp [isVariance, hstat]
      have := ih acc acc2 hrest
      simpa [effectFiles, effectDofVols, varianceFiles, lastStatEnts,
             List.filter_cons, he, hv, hstat] using this
    | some sv =>
      by_cases hse : sv = EVal.s "effect"
      · subst hse
        cases hdof : (eget m.2 "DegreesOfFreedom").bind evalNum with
        | none =>
          simp [processMap, hstat, hdof] at hpm
        | some d =>
          simp [processMap, hstat, hdof] at hpm
          subst hpm
          have he : isEffect m = true := by simp [isEffect, hstat]
          have hv : isVariance m = false := by simp [isVariance, hstat]
          have hd : dofOfMeta m.2 = d := by simp [dofOfMeta, hdof]
          have := ih _ acc2 hrest
          simp only at this
          simp [effectFiles, effectDofVols, varianceFiles, lastStatEnts,
                List.filter_cons, he, hv, hd, hstat, this]
      · by_cases hsv : sv = EVal.s "variance"
        · subst hsv
          simp [processMap, hstat] at hpm
          subst hpm
          have he : isEffect m = false := by simp [isEffect, hstat]
          have hv : isVariance m = true := by simp [isVariance, hstat]
          have := ih _ acc2 hrest
          simp only at this
          simp [effectFiles, effectDofVols, varianceFiles, lastStatEnts,
                List.filter_cons, he, hv, hstat, this]
        · simp [processMap, hstat, hse, hsv] at hpm
          subst hpm
          have he : isEffect m = false := by
            simp only [isEffect, hstat, decide_eq_false_iff_not]
            exact fun hh => hse (Option.some.inj hh)
          have hv : isVariance m = false := by
            simp only [isVariance, hstat, decide_eq_false_iff_not]
            exact fun hh => hsv (Option.some.inj hh)
          have := ih _ acc2 hrest
          simp only at this
          simp [effectFiles, effectDofVols, varianceFiles, lastStatEnts,
                List.filter_cons, he, hv, hstat, this]

lemma mergeBucket_ok (bucket : List (Volume × Entities)) (out : BucketOut)
    (h : mergeBucket bucket = .ok out) :
    out.effects = effectFiles bucket ∧
    out.variances = varianceFiles bucket ∧
    out.dofs = effectDofVols bucket ∧
    out.ents = epop (eset (lastStatEnts [] bucket) "NumLevelTimepoints"
                       (EVal.n ((effectFiles bucket).length : Int))) "stat" ∧
    effectFiles bucket ≠ [] ∧ varianceFiles bucket ≠ [] := by
  unfold mergeBucket at h
  split at h
  · exact absurd h (by simp)
  · next acc hpb =>
    obtain ⟨h1, h2, h3, h4⟩ := processBucket_ok bucket _ _ hpb
    simp only at h1 h2 h3 h4
    rw [List.nil_append] at h1 h2 h3
    split at h
    · exact absurd h (by simp)
    · next hee =>
      split at h
      · exact absurd h (by simp)
      · next hvv =>
        have hout := Except.ok.inj h
        subst hout
        refine ⟨h1, h3, h2, ?_, ?_, ?_⟩
        · simp [h1, h4]
        · rw [← h1]; simpa using hee
        · rw [← h3]; simpa using hvv

/-! ## Helper lemmas on mergeMaps -/

lemma mergeMaps_cons_ok (org : Org) (dc : EVal) (rest : List EVal) (out : MergeOut)
    (h : mergeMaps org (dc :: rest) = .ok out) :
    ∃ bucket b out2, orgLookup org dc = some bucket ∧
      mergeBucket bucket = .ok b ∧ mergeMaps org rest = .ok out2 ∧
      out = ⟨b.ents :: out2.entities, b.effects :: out2.effects,
             b.variances :: out2.variances, b.dofs :: out2.dofs⟩ := by
  simp only [mergeMaps] at h
  split at h
  · exact absurd h (by simp)
  · next bucket heq =>
    split at h
    · exact absurd h (by simp)
    · next b heq2 =>
      split at h
      · exact absurd h (by simp)
      · next out2 heq3 =>
        exact ⟨bucket, b, out2, heq, heq2, heq3, (Except.ok.inj h).symm⟩

lemma mergeMaps_ok (org : Org) :
    ∀ dcs out, mergeMaps org dcs = .ok out →
      out.entities.length = dcs.length ∧
      out.effects.length = dcs.length ∧
      out.variances.length = dcs.length ∧
      out.dofs.length = dcs.length := by
  intro dcs
  induction dcs with
  | nil =>
    intro out h
    simp [mergeMaps] at h
    simp [← h]
  | cons dc rest ih =>
    intro out h
    obtain ⟨bucket, b, out2, _, _, hm, hout⟩ := mergeMaps_cons_ok org dc rest out h
    subst hout
    have := ih out2 hm
    simp [this]

/-! ## Helper lemmas on contrast generation -/

lemma processReals_spec (en : List String) :
    ∀ cs rs rn, processReals cs en = .ok (rs, rn) →
      rs = (cs.filter (fun c => en.all (fun e => c.ConditionList.contains e))).map
             (emittedTuple en) ∧
      rn = (cs.filter (fun c => en.all (fun e => c.ConditionList.contains e))).map
             (fun c => c.Name) := by
  intro cs
  induction cs with
  | nil =>
    intro rs rn h
    simp [processReals] at h
    simp [h.1, h.2]
  | cons c rest ih =>
    intro rs rn h
    simp only [processReals] at h
    by_cases hs : en.all (fun e => c.ConditionList.contains e)
    · rw [if_pos hs] at h
      by_cases htvb : c.Name = "task_vs_baseline"
      · rw [if_pos htvb] at h
        by_cases hemp : en.isEmpty
        · rw [if_pos hemp] at h; exact absurd h (by simp)
        · rw [if_neg hemp] at h
          split at h
          · exact absurd h (by simp)
          · next r heq =>
            obtain ⟨hl, hr⟩ := Prod.mk.injEq .. ▸ Except.ok.inj h
            obtain ⟨ih1, ih2⟩ := ih r.1 r.2 heq
            subst hl hr
            refine ⟨?_, ?_⟩ <;> rw [List.filter_cons, if_pos hs] <;>
              simp [emittedTuple, htvb, ih1, ih2]
      · rw [if_neg htvb] at h
        split at h
        · exact absurd h (by simp)
        · next r heq =>
          obtain ⟨hl, hr⟩ := Prod.mk.injEq .. ▸ Except.ok.inj h
          obtain ⟨ih1, ih2⟩ := ih r.1 r.2 heq
          subst hl hr
          refine ⟨?_, ?_⟩ <;> rw [List.filter_cons, if_pos hs] <;>
            simp [emittedTuple, htvb, ih1, ih2]
    · rw [if_neg hs] at h
      obtain ⟨ih1, ih2⟩ := ih rs rn h
      simp only [List.filter_cons]
      rw [if_neg (by simpa using hs)]
      exact ⟨ih1, ih2⟩

lemma processReals_empty_tvb :
    ∀ cs (c : Contrast), c ∈ cs → c.Name = "task_vs_baseline" →
      processReals cs [] = .error "ZeroDivisionError" := by
  intro cs
  induction cs with
  | nil => intro c hc _; simp at hc
  | cons c0 rest ih =>
    intro c hc htvb
    simp only [processReals]
    rw [if_pos (by simp)]
    by_cases h0 : c0.Name = "task_vs_baseline"
    · rw [if_pos h0, if_pos (by simp)]
    · rw [if_neg h0]
      have hc2 : c ∈ rest := by
        cases List.mem_cons.mp hc with
        | inl he => exact absurd (he ▸ htvb) h0
        | inr hr => exact hr
      rw [ih c hc2 htvb]

lemma getContrasts_ok_parts (model : RunModel) (en : List String)
    (spec : List ContrastTuple) (names : List String)
    (h : getContrasts model en = .ok (spec, names)) :
    ∃ rs rn, processReals model.Contrasts en = .ok (rs, rn) ∧
      spec = (processDummies en (dummyList model)).1 ++ rs ∧
      names = (processDummies en (dummyList model)).2 ++ rn := by
  simp only [getContrasts] at h
  split at h
  · exact absurd h (by simp)
  · next r heq =>
    obtain ⟨hl, hr⟩ := Prod.mk.injEq .. ▸ Except.ok.inj h
    exact ⟨r.1, r.2, heq, hl.symm, hr.symm⟩

/-! ## Helper lemmas on detrending -/

lemma applyDetrend_conditions (info : RunInfo) (m : ℕ) (dp : Option ℕ) :
    (applyDetrend info m dp).conditions = info.conditions := by
  cases dp with
  | none => rfl
  | some n =>
    by_cases h : n = 0 <;> simp [applyDetrend, h]

lemma applyDetrend_regressor_count (info : RunInfo) (m : ℕ) (dp : Option ℕ) :
    (applyDetrend info m dp).regressor_names.length
      = info.regressor_names.length + detrendCount dp := by
  cases dp with
  | none => simp [applyDetrend, detrendCount]
  | some n =>
    by_cases h : n = 0 <;> simp [applyDetrend, detrendCount, h, detrendNames]

/-! ## Helper lemmas on matrix emission -/

lemma produceOne_ok (entity : Entities) (k : Int) (st : PMState) (mt : String)
    (st2 : PMState) (h : produceOne entity k st mt = .ok st2) :
    ∃ path con origCon,
      buildMatrixPath (eset st.ents "desc" (EVal.s "contrast")) = some path ∧
      eget (eset st.ents "desc" (EVal.s "contrast")) "contrast" = some con ∧
      eget entity "contrast" = some origCon ∧
      st2 = { ents := eset (eset st.ents "desc" (EVal.s "contrast")) "contrast"
                        (EVal.s (snakeToCamel (evalStr origCon))),
              fs := fsAppend st.fs path (String.join (writtenLines mt k (evalStr con))),
              dPaths := st.dPaths ++ (if mt = "design" then [path] else []),
              cPaths := st.cPaths ++ (if mt = "contrast" then [path] else []),
              vPaths := st.vPaths ++ (if mt = "covariance" then [path] else []) } := by
  simp only [produceOne] at h
  split at h
  · exact absurd h (by simp)
  · next path hpath =>
    split at h
    · exact absurd h (by simp)
    · next con hcon =>
      split at h
      · exact absurd h (by simp)
      · next origCon horig =>
        exact ⟨path, con, origCon, hpath, hcon, horig, (Except.ok.inj h).symm⟩

lemma buildMatrixPath_congr (a b : Entities)
    (h1 : eget a "subject" = eget b "subject")
    (h2 : eget a "session" = eget b "session")
    (h3 : eget a "contrast" = eget b "contrast")
    (h4 : eget a "desc" = eget b "desc") :
    buildMatrixPath a = buildMatrixPath b := by
  unfold buildMatrixPath
  rw [h1, h2, h3, h4]

/-! ## Claim theorems: run-level compiler -/

/-- C8: an event-derived predictor whose row selection is empty is
silently dropped by the model-info pass: it contributes no condition and
no arrays, raises nothing, and the remaining predictors of X are
processed unchanged and in order. -/
theorem empty_event_predictor_dropped (X1 X2 : List String) (r col val : String)
    (ev : List EventRow) (cf : ConfoundTable)
    (hsplit : splitOnChar r '.' = [col, val])
    (hcol : ∀ row ∈ ev, (lookupCat row.cats col).isSome)
    (hq : queryRows col val ev = []) :
    getModelInfo (X1 ++ r :: X2) ev cf = getModelInfo (X1 ++ X2) ev cf := by
  induction X1 with
  | nil => simp [getModelInfo, hsplit, hq]
  | cons x rest ih =>
    simp only [List.cons_append, getModelInfo, List.append_eq]
    rw [ih]

/-- C8 witness: with a single trial_type a event, the predictor
trial_type.b is dropped and the run compiles as if it were absent. -/
theorem empty_event_predictor_dropped_witness :
    getModelInfo (["rot_x"] ++ "trial_type.b" :: ["trial_type.a"])
        [⟨0, 1, [("trial_type", "a")]⟩] ⟨[("rot_x", [])], 1⟩
      = getModelInfo (["rot_x"] ++ ["trial_type.a"])
        [⟨0, 1, [("trial_type", "a")]⟩] ⟨[("rot_x", [])], 1⟩ :=
  empty_event_predictor_dropped ["rot_x"] ["trial_type.a"] "trial_type.b"
    "trial_type" "b" [⟨0, 1, [("trial_type", "a")]⟩] ⟨[("rot_x", [])], 1⟩
    (by decide) (by decide) (by decide)

/-- C2 counterexample: with detrend degree 1 over 2 volumes, the code
computes DegreesOfFreedom = 2 - 1 = 1 before appending the two detrend
regressors, while the claimed formula Volumes - (conditions + regressors
+ detrend terms) gives 2 - (0 + 1 + 2) = -1. -/
theorem dof_detrend_counterexample :
    (compileRunModel ["rot_x"] [] ⟨[("rot_x", [0, 0])], 2⟩ (some 1)).map
        (fun o => (o.dof, o.info.conditions.length, o.info.regressor_names.length))
      = .ok (1, 0, 3)
    ∧ ¬ ((1 : Int) = (2 : Int) - ((0 + 1 + 2 : ℕ) : Int)) := by
  exact ⟨rfl, by decide⟩

/-- C2 (amended): DegreesOfFreedom equals Volumes minus the number of
event-derived conditions and confound-derived regressors, the detrend
terms not being subtracted: dof = Volumes - (conditions + regressors) +
detrend terms, with the counts taken from the final run_info. -/
theorem dof_excludes_detrend (X : List String) (ev : List EventRow)
    (cf : ConfoundTable) (dp : Option ℕ) (out : RunCompile)
    (h : compileRunModel X ev cf dp = .ok out) :
    out.dof = (cf.nrows : Int)
        - ((out.info.conditions.length + out.info.regressor_names.length : ℕ) : Int)
        + ((detrendCount dp : ℕ) : Int) := by
  unfold compileRunModel at h
  split at h
  · exact absurd h (by simp)
  · next info heq =>
    have hout := Except.ok.inj h
    subst hout
    simp only [applyDetrend_conditions, applyDetrend_regressor_count]
    push_cast
    ring

/-- C2 witness: a run with 5 volumes, one confound regressor and detrend
degree 1 satisfies the amended DegreesOfFreedom equation. -/
theorem dof_excludes_detrend_witness :
    ∃ out, compileRunModel ["rot_x"] [] ⟨[("rot_x", [])], 5⟩ (some 1) = .ok out
      ∧ out.dof = (((⟨[("rot_x", [])], 5⟩ : ConfoundTable).nrows : ℕ) : Int)
          - ((out.info.conditions.length + out.info.regressor_names.length : ℕ) : Int)
          + ((detrendCount (some 1) : ℕ) : Int) := by
  refine ⟨_, rfl, ?_⟩
  exact dof_excludes_detrend ["rot_x"] [] ⟨[("rot_x", [])], 5⟩ (some 1) _ rfl

/-- C1 counterexample: the named contrast c has ConditionList
containing a and b while the run's condition names are only the single a,
so the ConditionList is not a subset of condition_names; the claim says
it must be skipped, yet the code emits it, because line 185 tests the
reverse inclusion set(event_names).issubset(ConditionList). -/
theorem contrast_subset_filter_counterexample :
    getContrasts exC1Model ["a"]
      = .ok ([("c", "T", ["a", "b"], [1, -1])], ["c"])
    ∧ ¬ (∀ x ∈ (["a", "b"] : List String), x ∈ (["a"] : List String)) :=
  ⟨rfl, by decide⟩

/-- C1 (amended): a named contrast survives the filter exactly when
condition_names is a subset of its ConditionList (the reverse of the
claimed inclusion); the emitted name list is the dummy names followed by
the names of the surviving contrasts in model order, and the emitted
specs correspond one to one. -/
theorem contrast_subset_filter_amended (model : RunModel) (en : List String)
    (spec : List ContrastTuple) (names : List String)
    (h : getContrasts model en = .ok (spec, names)) :
    names = (processDummies en (dummyList model)).2
        ++ (model.Contrasts.filter
              (fun c => en.all (fun e => c.ConditionList.contains e))).map (fun c => c.Name)
    ∧ spec = (processDummies en (dummyList model)).1
        ++ (model.Contrasts.filter
              (fun c => en.all (fun e => c.ConditionList.contains e))).map (emittedTuple en) := by
  obtain ⟨rs, rn, heq, hspec, hnames⟩ := getContrasts_ok_parts model en spec names h
  obtain ⟨h1, h2⟩ := processReals_spec en model.Contrasts rs rn heq
  exact ⟨by rw [hnames, h2], by rw [hspec, h1]⟩

/-- C1 witness: the amended characterization at a concrete model and
run. -/
theorem contrast_subset_filter_amended_witness :
    ∃ spec names, getContrasts exC1Model ["a"] = .ok (spec, names)
      ∧ (names = (processDummies ["a"] (dummyList exC1Model)).2
          ++ (exC1Model.Contrasts.filter
                (fun c => (["a"] : List String).all
                  (fun e => c.ConditionList.contains e))).map (fun c => c.Name)
        ∧ spec = (processDummies ["a"] (dummyList exC1Model)).1
          ++ (exC1Model.Contrasts.filter
                (fun c => (["a"] : List String).all
                  (fun e => c.ConditionList.contains e))).map (emittedTuple ["a"])) := by
  refine ⟨_, _, rfl, ?_⟩
  exact contrast_subset_filter_amended exC1Model ["a"] _ _ rfl

/-- C7: a surviving contrast named task_vs_baseline is emitted over the
full condition_names list with weight 1/n on each of the n conditions,
and those weights sum to 1 (the run's condition list is necessarily
nonempty, since an empty one would raise ZeroDivisionError instead of
returning). -/
theorem task_vs_baseline_weights (model : RunModel) (en : List String)
    (spec : List ContrastTuple) (names : List String) (c : Contrast)
    (h : getContrasts model en = .ok (spec, names))
    (hc : c ∈ model.Contrasts)
    (hname : c.Name = "task_vs_baseline")
    (hsurv : en.all (fun e => c.ConditionList.contains e) = true) :
    (("task_vs_baseline", strToUpper c.ctype, en,
        List.replicate en.length ((1 : ℚ) / (en.length : ℚ))) ∈ spec)
    ∧ en ≠ []
    ∧ (List.replicate en.length ((1 : ℚ) / (en.length : ℚ))).sum = 1 := by
  obtain ⟨rs, rn, heq, hspec, hnames⟩ := getContrasts_ok_parts model en spec names h
  have hen : en ≠ [] := by
    intro hnil
    subst hnil
    rw [processReals_empty_tvb model.Contrasts c hc hname] at heq
    exact absurd heq (by simp)
  obtain ⟨h1, h2⟩ := processReals_spec en model.Contrasts rs rn heq
  have hcf : c ∈ model.Contrasts.filter
      (fun c => en.all (fun e => c.ConditionList.contains e)) :=
    List.mem_filter.mpr ⟨hc, hsurv⟩
  have hmem : emittedTuple en c ∈ rs := by
    rw [h1]; exact List.mem_map_of_mem _ hcf
  have htup : emittedTuple en c
      = ("task_vs_baseline", strToUpper c.ctype, en,
         List.replicate en.length ((1 : ℚ) / (en.length : ℚ))) := by
    simp [emittedTuple, hname]
  refine ⟨?_, hen, ?_⟩
  · rw [hspec]
    exact List.mem_append_right _ (htup ▸ hmem)
  · rw [List.sum_replicate, nsmul_eq_mul, mul_one_div, div_self]
    exact_mod_cast (List.length_pos.mpr hen).ne'

/-- C7 witness: with condition names a and b, the surviving
task_vs_baseline contrast carries weights of one half each, summing
to 1. -/
theorem task_vs_baseline_weights_witness :
    ∃ spec names, getContrasts exTvbModel ["a", "b"] = .ok (spec, names)
      ∧ ((("task_vs_baseline", strToUpper exTvbContrast.ctype, ["a", "b"],
            List.replicate (["a", "b"] : List String).length
              ((1 : ℚ) / ((["a", "b"] : List String).length : ℚ))) ∈ spec)
        ∧ (["a", "b"] : List String) ≠ []
        ∧ (List.replicate (["a", "b"] : List String).length
            ((1 : ℚ) / ((["a", "b"] : List String).length : ℚ))).sum = 1) := by
  refine ⟨_, _, rfl, ?_⟩
  exact task_vs_baseline_weights exTvbModel ["a", "b"] _ _ exTvbContrast rfl
    (List.mem_cons_self _ _) rfl (by decide)

/-! ## Claim theorems: higher-level aggregator -/

/-- C4 counterexample: a single effect map for contrast c is grouped into
a bucket, yet with no DummyContrasts key in the model the merge loop
iterates over nothing and produces no merged volumes at all, against the
claim that every bucket is merged regardless of DummyContrasts. -/
theorem merge_requires_dummy_counterexample :
    getOrganization [exSingleMap] = .ok [(EVal.s "c", [exSingleMap])]
    ∧ mergeMaps [(EVal.s "c", [exSingleMap])]
        (getDummyContrasts ⟨none⟩ [(EVal.s "c", [exSingleMap])])
      = .ok ⟨[], [], [], []⟩ :=
  ⟨rfl, rfl⟩

/-- C4 (amended): merged outputs are produced exactly for the contrasts
in the dummy-contrast list: DummyContrasts.Conditions when present, every
bucket key when DummyContrasts is present without Conditions, and none at
all when the model has no DummyContrasts key. -/
theorem merge_follows_dummy_list (maps : List (Volume × Entities)) (model : HLModel)
    (org : Org) (out : MergeOut)
    (horg : getOrganization maps = .ok org)
    (h : mergeMaps org (getDummyContrasts model org) = .ok out) :
    out.entities.length = (getDummyContrasts model org).length
    ∧ out.effects.length = (getDummyContrasts model org).length
    ∧ out.variances.length = (getDummyContrasts model org).length
    ∧ out.dofs.length = (getDummyContrasts model org).length
    ∧ (model.dummyContrasts = none → out = ⟨[], [], [], []⟩) := by
  obtain ⟨h1, h2, h3, h4⟩ := mergeMaps_ok org _ out h
  refine ⟨h1, h2, h3, h4, ?_⟩
  intro hnone
  have hdc : getDummyContrasts model org = [] := by
    simp [getDummyContrasts, hnone]
  rw [hdc] at h
  exact (Except.ok.inj h).symm

/-- C4 witness: with DummyContrasts present but without Conditions, the
single bucket of the organization is merged. -/
theorem merge_follows_dummy_list_witness :
    ∃ org out, getOrganization [(⟨[2]⟩, exEffMeta), (⟨[3]⟩, exVarMeta)] = .ok org
      ∧ mergeMaps org (getDummyContrasts ⟨some none⟩ org) = .ok out
      ∧ (out.entities.length = (getDummyContrasts ⟨some none⟩ org).length
        ∧ out.effects.length = (getDummyContrasts ⟨some none⟩ org).length
        ∧ out.variances.length = (getDummyContrasts ⟨some none⟩ org).length
        ∧ out.dofs.length = (getDummyContrasts ⟨some none⟩ org).length
        ∧ ((⟨some none⟩ : HLModel).dummyContrasts = none → out = ⟨[], [], [], []⟩)) := by
  refine ⟨_, _, rfl, rfl, ?_⟩
  exact merge_follows_dummy_list [(⟨[2]⟩, exEffMeta), (⟨[3]⟩, exVarMeta)]
    ⟨some none⟩ _ _ rfl rfl

/-- C6 counterexample: merging a bucket whose last stat-keyed metadata
carries run 2 returns merged entities that still contain the run key,
against the claim that the run-specific key has been removed from the
returned contrast_metadata (only the internal path-building copy drops
it, at line 359). -/
theorem merged_entities_keep_run_counterexample :
    mergeBucket exBucket = .ok ⟨[⟨[2]⟩], [⟨[3]⟩], [⟨[((5 : Int) : ℚ)]⟩],
        [("run", EVal.n 2), ("contrast", EVal.s "c"), ("NumLevelTimepoints", EVal.n 1)]⟩
    ∧ eget [("run", EVal.n 2), ("contrast", EVal.s "c"), ("NumLevelTimepoints", EVal.n 1)]
        "run" = some (EVal.n 2) :=
  ⟨rfl, rfl⟩

/-- C6 (amended): the merged entities are a copy of the last-seen
stat-keyed metadata of the bucket in which NumLevelTimepoints has been
added and the stat key removed; the run key is retained, not removed. -/
theorem merged_entities_amended (bucket : List (Volume × Entities)) (out : BucketOut)
    (h : mergeBucket bucket = .ok out) :
    out.ents = epop (eset (lastStatEnts [] bucket) "NumLevelTimepoints"
                       (EVal.n ((effectFiles bucket).length : Int))) "stat"
    ∧ eget out.ents "run" = eget (lastStatEnts [] bucket) "run" := by
  obtain ⟨_, _, _, h4, _, _⟩ := mergeBucket_ok bucket out h
  refine ⟨h4, ?_⟩
  rw [h4, eget_epop_ne _ _ _ (by decide), eget_eset_ne _ _ _ _ (by decide)]

/-- C6 witness: the amended merged-entity characterization on a concrete
two-map bucket. -/
theorem merged_entities_amended_witness :
    ∃ out, mergeBucket exBucket = .ok out
      ∧ (out.ents = epop (eset (lastStatEnts [] exBucket) "NumLevelTimepoints"
            (EVal.n ((effectFiles exBucket).length : Int))) "stat"
        ∧ eget out.ents "run" = eget (lastStatEnts [] exBucket) "run") := by
  refine ⟨_, rfl, ?_⟩
  exact merged_entities_amended exBucket _ rfl

/-- C9: for a merged bucket, the effect slices are exactly the stat
effect maps in input order, NumLevelTimepoints equals their number (the
trailing-axis length of the merged effect volume), and the merged DOF
volume consists of one slice per effect map, in the same order, each
obtained by broadcasting that run's scalar DegreesOfFreedom over that
run's voxel grid. -/
theorem merge_numlevel_and_dof (bucket : List (Volume × Entities)) (out : BucketOut)
    (h : mergeBucket bucket = .ok out) :
    out.effects = effectFiles bucket
    ∧ out.dofs = effectDofVols bucket
    ∧ eget out.ents "NumLevelTimepoints" = some (EVal.n (out.effects.length : Int))
    ∧ out.dofs.length = out.effects.length := by
  obtain ⟨h1, h2, h3, h4, hne, _⟩ := mergeBucket_ok bucket out h
  refine ⟨h1, h3, ?_, ?_⟩
  · rw [h4, eget_epop_ne _ _ _ (by decide), eget_eset_self, h1]
  · rw [h1, h3]
    simp [effectFiles, effectDofVols]

/-- C9 witness: the characterization on a concrete bucket with one
effect map (DOF 5) and one variance map. -/
theorem merge_numlevel_and_dof_witness :
    ∃ out, mergeBucket exBucket = .ok out
      ∧ (out.effects = effectFiles exBucket
        ∧ out.dofs = effectDofVols exBucket
        ∧ eget out.ents "NumLevelTimepoints" = some (EVal.n (out.effects.length : Int))
        ∧ out.dofs.length = out.effects.length) := by
  refine ⟨_, rfl, ?_⟩
  exact merge_numlevel_and_dof exBucket _ rfl

/-! ## Claim theorems: matrix emission -/

/-- C3 (code bug): at NumLevelTimepoints 1 the design emission writes its
header block (which itself announces NumPoints 1 and a Matrix section)
and then zero body lines, because the body loop at lines 416-418 runs
only for the covariance type; the covariance file gets its one body line
and the contrast file its single hard-coded one. -/
theorem design_matrix_missing_body :
    writtenLines "design" 1 "C"
      = ["/NumWaves 1\n", "/NumPoints 1\n", "/PPHeights 1\n\n", "/Matrix\n"]
    ∧ "1\n" ∉ writtenLines "design" 1 "C"
    ∧ writtenLines "covariance" 1 "C"
      = ["/NumWaves 1\n", "/NumPoints 1\n\n", "/Matrix\n", "1\n"]
    ∧ writtenLines "contrast" 1 "C"
      = ["/ContrastName1 C\n", "/NumWaves 1\n", "/NumPoints 1\n\n", "/Matrix\n", "1\n"] :=
  ⟨by decide, by decide, by decide, by decide⟩

/-- C5 (code bug): running _produce_matrices twice over the same merged
entity in the same working directory does not reproduce the first run's
files: the matrices are opened with mode a, so the second run appends and
the resulting file contents differ from the first run's. -/
theorem matrix_files_not_idempotent :
    ∃ a1 a2 : PMAcc,
      produceMatrices [exMergedEnt] ⟨[], [], [], []⟩ = .ok a1
      ∧ produceMatrices [exMergedEnt] ⟨a1.fs, [], [], []⟩ = .ok a2
      ∧ a2.fs ≠ a1.fs := by
  refine ⟨_, _, rfl, rfl, by decide⟩

/-- C10: for every entity the matrix_type loop processes successfully,
the path recorded for the contrast matrix equals the path recorded for
the covariance matrix: both are built from the same entity copy after
desc has been forced to contrast and the contrast name camel-cased, so
the two artifacts are appended into one and the same file. -/
theorem contrast_covariance_same_path (entity : Entities) (k : Int) (st : PMState)
    (res : PMState)
    (h : processTypes entity k st ["design", "contrast", "covariance"] = .ok res) :
    ∃ p, res.cPaths = st.cPaths ++ [p] ∧ res.vPaths = st.vPaths ++ [p] := by
  simp only [processTypes] at h
  split at h
  · exact absurd h (by simp)
  · next st1 h1 =>
    split at h
    · exact absurd h (by simp)
    · next st2 h2 =>
      split at h
      · exact absurd h (by simp)
      · next st3 h3 =>
        have hres : st3 = res := Except.ok.inj h
        subst hres
        obtain ⟨p1, c1, o1, hb1, hc1, ho1, he1⟩ :=
          produceOne_ok entity k st "design" st1 h1
        obtain ⟨p2, c2, o2, hb2, hc2, ho2, he2⟩ :=
          produceOne_ok entity k st1 "contrast" st2 h2
        obtain ⟨p3, c3, o3, hb3, hc3, ho3, he3⟩ :=
          produceOne_ok entity k st2 "covariance" st3 h3
        rw [ho1] at ho2 ho3
        have ho2' := Option.some.inj ho2
        have ho3' := Option.some.inj ho3
        subst ho2' ho3'
        subst he1 he2
        dsimp only at hb2 hb3
        have hpath : buildMatrixPath
            (eset (eset (eset (eset (eset st.ents "desc" (EVal.s "contrast")) "contrast"
                (EVal.s (snakeToCamel (evalStr o1)))) "desc" (EVal.s "contrast")) "contrast"
                (EVal.s (snakeToCamel (evalStr o1)))) "desc" (EVal.s "contrast"))
            = buildMatrixPath
            (eset (eset (eset st.ents "desc" (EVal.s "contrast")) "contrast"
                (EVal.s (snakeToCamel (evalStr o1)))) "desc" (EVal.s "contrast")) := by
          apply buildMatrixPath_congr <;>
            simp [eget_eset_self, eget_eset_ne]
        rw [hpath, hb2] at hb3
        have hp : p2 = p3 := Option.some.inj hb3
        subst he3
        refine ⟨p2, ?_, ?_⟩ <;> simp [hp]

/-- C10 witness: the contrast and covariance paths coincide on a concrete
merged entity. -/
theorem contrast_covariance_same_path_witness :
    ∃ res : PMState,
      processTypes exMergedEnt 1 ⟨exMergedEnt, [], [], [], []⟩
          ["design", "contrast", "covariance"] = .ok res
      ∧ ∃ p, res.cPaths = ([] : List String) ++ [p]
           ∧ res.vPaths = ([] : List String) ++ [p] := by
  refine ⟨_, rfl, ?_⟩
  exact contrast_covariance_same_path exMergedEnt 1 ⟨exMergedEnt, [], [], [], []⟩ _ rfl
